import Mathlib

set_option maxHeartbeats 1000000

/-!
Shallow embedding of the DNS controller (`service/dns/dns_windows.go`) and of the
WireGuard tunnel lifecycle controller (`vpn/wireguard/wireguard_linux.go`) of the
desktop-app-daemon repository, together with theorems settling the specification
claims about them.

Modelling conventions:
- IPv4 addresses and hardware (MAC) addresses are encoded as natural numbers;
  a Go `nil` `net.IP` is `Option.none`.
- The fallible native helper calls (`fSetDNSByLocalIP`, `fSetDNSByMAC`) are driven
  by an oracle `NativeCall → Bool` deciding which concrete call succeeds; every
  issued call is recorded in a trace inside the DNS state.
- The OS network topology (`netinfo.GetAllLocalV4Addresses`,
  `netinfo.InterfaceByIPAddr`) is an explicit environment with `Except`-valued
  results, mirroring the fallible Go calls.
-/

/-- DNS operation codes of the native helper (Go `OperationSet = 0`,
`OperationAdd = 1`, `OperationDel = 2`). -/
inductive DnsOp
  | opSet
  | opAdd
  | opDel
deriving DecidableEq

/-- One native helper invocation: `fSetDNSByLocalIP(localAddr, dns, op)` or
`fSetDNSByMAC(mac, dns, op)`, recorded with its Go-level arguments. -/
inductive NativeCall
  | byLocalIP (localAddr : Nat) (dns : Option Nat) (op : DnsOp)
  | byMAC (mac : Nat) (dns : Option Nat) (op : DnsOp)
deriving DecidableEq

/-- Encoding of Go `net.IPv4zero` (the `0.0.0.0` sentinel passed by
`implDeleteManual` to reset the tunnel interface DNS). -/
def ipv4zero : Nat := 0

/-- Go `net.IP.Equal` on our `Option Nat` encoding: two `nil` IPs are equal,
`nil` is never equal to a concrete address (`implSetManual` line
`addr.Equal(_lastDNS)`). -/
def ipEq : Option Nat → Option Nat → Bool
  | none, none => true
  | some a, some b => a == b
  | none, some _ => false
  | some _, none => false

/-- One local IPv4 network attachment as returned by
`netinfo.GetAllLocalV4Addresses`: the interface's own address plus its subnet
(base address and mask length). -/
structure LocalNet where
  ip : Nat
  base : Nat
  maskLen : Nat
deriving DecidableEq

/-- Go `net.IPNet.Contains`: both the candidate address and the network base are
masked down to the subnet's prefix and compared. -/
def netContains (n : LocalNet) (a : Nat) : Bool :=
  Nat.shiftRight a (32 - n.maskLen) == Nat.shiftRight n.base (32 - n.maskLen)

/-- The OS topology environment consulted by `getMACAddrByIPinNetwork`:
`networks` is `netinfo.GetAllLocalV4Addresses()` (the whole enumeration can
fail), `ifaceByIP` is `netinfo.InterfaceByIPAddr` (per-interface lookup can fail
with an error, or yield no interface / no hardware address, encoded `ok none`). -/
structure TopoEnv where
  networks : Except Unit (List LocalNet)
  ifaceByIP : Nat → Except Unit (Option Nat)

/-- Loop body of the `for _, network := range networks` loop inside
`getMACAddrByIPinNetwork`: skip the excluded local address, skip networks not
containing `a`, skip interfaces whose lookup fails or has no hardware address,
otherwise append the hardware address. -/
def gmacStep (env : TopoEnv) (a : Nat) (skip : Option Nat) (ret : List Nat) (network : LocalNet) : List Nat :=
  if ipEq (some network.ip) skip then ret
  else if netContains network a then
    match env.ifaceByIP network.ip with
    | .error _ => ret
    | .ok none => ret
    | .ok (some hw) => ret ++ [hw]
  else ret

/-- `getMACAddrByIPinNetwork(addr, localAddrToSkip)`: `nil` address gives an
empty result; a failing enumeration of all local networks is a fatal error;
otherwise the matching interfaces' hardware addresses are collected. -/
def getMACAddrByIPinNetwork (env : TopoEnv) (addr : Option Nat) (localAddrToSkip : Option Nat) : Except Unit (List Nat) :=
  match addr with
  | none => .ok []
  | some a =>
    match env.networks with
    | .error _ => .error ()
    | .ok networks => .ok (networks.foldl (gmacStep env a localAddrToSkip) [])

/-- How the callers `implSetManual` / `implDeleteManual` consume the result of
`getMACAddrByIPinNetwork`: the error is assigned to the named return value but
never checked, so an enumeration failure behaves exactly like an empty list. -/
def listOrNil : Except Unit (List Nat) → List Nat
  | .ok l => l
  | .error _ => []

/-- Decidable equality of the error-or-unit results returned by the embedded
DNS controller operations (used to evaluate the theorems on concrete inputs). -/
instance : DecidableEq (Except Unit Unit) := fun a b =>
  match a, b with
  | .ok (), .ok () => isTrue rfl
  | .error (), .error () => isTrue rfl
  | .ok (), .error () => isFalse (fun h => Except.noConfusion h)
  | .error (), .ok () => isFalse (fun h => Except.noConfusion h)

/-- State of the DNS controller: the tracked `_lastDNS` value plus the trace of
native helper calls issued so far (the trace is our observation of the side
effects; it is not part of the Go state). -/
structure DnsState where
  lastDNS : Option Nat
  trace : List NativeCall
deriving DecidableEq

/-- The `for _, mac := range ...` loops of `implSetManual` (`OperationAdd`) and
`implDeleteManual` (`OperationDel`): issue one `fSetDNSByMAC` per hardware
address, aborting on the first failure. -/
def macLoop (oracle : NativeCall → Bool) (op : DnsOp) (dnsVal : Option Nat) : List Nat → DnsState → Except Unit Unit × DnsState
  | [], s => (.ok (), s)
  | m :: rest, s =>
    let c := NativeCall.byMAC m dnsVal op
    let s' : DnsState := { s with trace := s.trace ++ [c] }
    if oracle c then macLoop oracle op dnsVal rest s' else (.error (), s')

/-- The `if localInterfaceIP != nil { fSetDNSByLocalIP(localInterfaceIP, dns, Set) }`
step shared by `implSetManual` (with `dns = addr`) and `implDeleteManual`
(with `dns = IPv4zero`): a no-op when no tunnel address is given, otherwise one
mode-Set native call on the tunnel interface. -/
def localIPStep (oracle : NativeCall → Bool) (localInterfaceIP : Option Nat) (dns : Option Nat) (s : DnsState) : Except Unit Unit × DnsState :=
  match localInterfaceIP with
  | none => (.ok (), s)
  | some l =>
    let c := NativeCall.byLocalIP l dns DnsOp.opSet
    ((if oracle c then Except.ok () else Except.error ()), { s with trace := s.trace ++ [c] })

/-- `implDeleteManual(localInterfaceIP)`: resolve topology from the tracked
`_lastDNS`; early no-op success when no tunnel address is given and nothing
matched; otherwise reset the tunnel interface (mode Set with the `IPv4zero`
sentinel) when a tunnel address is given, then remove the tracked value from
each matched interface (mode Del); only if everything succeeded, clear
`_lastDNS`. -/
def implDeleteManual (env : TopoEnv) (oracle : NativeCall → Bool) (localInterfaceIP : Option Nat) (s : DnsState) : Except Unit Unit × DnsState :=
  let macs := listOrNil (getMACAddrByIPinNetwork env s.lastDNS localInterfaceIP)
  if localInterfaceIP = none ∧ macs = [] then (.ok (), s)
  else
    match localIPStep oracle localInterfaceIP (some ipv4zero) s with
    | (.error e, s1) => (.error e, s1)
    | (.ok _, s1) =>
      match macLoop oracle DnsOp.opDel s.lastDNS macs s1 with
      | (.error e, s2) => (.error e, s2)
      | (.ok _, s2) => (.ok (), { s2 with lastDNS := none })

/-- Second half of `implSetManual`, after the early-equality check and the
cleanup of a previously tracked value: resolve topology for the new address,
early no-op success when no tunnel address is given and nothing matched,
otherwise set the tunnel interface DNS (mode Set) when a tunnel address is
given, add the DNS to each matched interface (mode Add), and only then record
`_lastDNS = addr`. -/
def setManualApply (env : TopoEnv) (oracle : NativeCall → Bool) (addr : Option Nat) (localInterfaceIP : Option Nat) (s0 : DnsState) : Except Unit Unit × DnsState :=
  let macs := listOrNil (getMACAddrByIPinNetwork env addr localInterfaceIP)
  if localInterfaceIP = none ∧ macs = [] then (.ok (), s0)
  else
    match localIPStep oracle localInterfaceIP addr s0 with
    | (.error e, s1) => (.error e, s1)
    | (.ok _, s1) =>
      match macLoop oracle DnsOp.opAdd addr macs s1 with
      | (.error e, s2) => (.error e, s2)
      | (.ok _, s2) => (.ok (), { s2 with lastDNS := addr })

/-- `implSetManual(addr, localInterfaceIP)`: no-op success when `addr` equals
the tracked value; if a value is tracked, first run `implDeleteManual(nil)` and
abort on its failure; then apply the new value (`setManualApply`). -/
def implSetManual (env : TopoEnv) (oracle : NativeCall → Bool) (addr : Option Nat) (localInterfaceIP : Option Nat) (s : DnsState) : Except Unit Unit × DnsState :=
  if ipEq addr s.lastDNS then (.ok (), s)
  else
    if s.lastDNS.isSome then
      match implDeleteManual env oracle none s with
      | (.error e, s0) => (.error e, s0)
      | (.ok _, s0) => setManualApply env oracle addr localInterfaceIP s0
    else setManualApply env oracle addr localInterfaceIP s

/-!
Embedding of the WireGuard lifecycle controller (`vpn/wireguard/wireguard_linux.go`).

The controller's concurrent behaviour is modelled as a labelled transition
system: the synchronous `connect` execution is broken into atomic phases
(iteration body, pause check, blocked receive), while `pause`, `resume` and
`disconnect` act from other execution contexts at any time. The capacity-1
channel `resumeDisconnectChan` is an `Option` cell written through `trySend`,
the embedding of the Go `select { case ch <- x: default: }` statement.
-/

/-- The Go `operation` values sent over `resumeDisconnectChan`. -/
inductive WgOp
  | opDisconnect
  | opResume
deriving DecidableEq

/-- The Go `select { case ch <- x: default: }` on the capacity-1 channel: if the
slot is free the value is stored, otherwise the send hits `default` and the NEW
value is dropped while the pending one stays. -/
def trySend (m : Option WgOp) (x : WgOp) : Option WgOp :=
  match m with
  | none => some x
  | some y => some y

/-- Program counter of the synchronous `connect` execution. -/
inductive WgPhase
  | phIdle
  | phInIter
  | phAtPauseCheck
  | phBlocked
deriving DecidableEq

/-- Externally visible backend-process commands (`<binary> up <cfg>` from the
connect loop, `<binary> down <cfg>` from `internalDisconnect`). -/
inductive WgEvent
  | evCmdUp
  | evCmdDown
deriving DecidableEq

/-- State of one WireGuard controller instance: the `internalVariables` flags,
the capacity-1 mailbox, the connect execution's phase and the trace of backend
commands issued so far. -/
structure WgState where
  isRunning : Bool
  isPaused : Bool
  mailbox : Option WgOp
  phase : WgPhase
  trace : List WgEvent
deriving DecidableEq

/-- Atomic actions of the system: the connect execution's own steps
(`actStartConnect`, `actIterOk`, `actIterFail`, `actCheckPause`, `actRecv`) and
the operations arriving from other execution contexts (`actPause`, `actResume`,
`actDisconnect`). -/
inductive WgAct
  | actStartConnect
  | actIterOk
  | actIterFail (upIssued : Bool)
  | actCheckPause
  | actRecv
  | actPause
  | actResume
  | actDisconnect
deriving DecidableEq

/-- One atomic step. Each case follows the Go source:
- `actStartConnect`: `connect` entry — `isRunning = true`, fresh capacity-1 channel.
- `actIterOk`: a loop iteration whose body succeeded (config written, `up`
  issued successfully, DNS applied, interface wait finished).
- `actIterFail b`: a loop iteration failing (config write, `up`, or DNS apply);
  `connect` returns the error and its deferred cleanup clears `isRunning`
  (never touching `isPaused`); `b` records whether `up` was issued.
- `actCheckPause`: the `if wg.isPaused()` check after an iteration — block on
  the channel when paused, otherwise leave the loop (deferred cleanup clears
  `isRunning`).
- `actRecv`: `op := <-resumeDisconnectChan` while blocked — `resume` repeats the
  loop, anything else leaves it; with an empty mailbox the receive stays blocked.
- `actPause`: `pause()` — no-op unless running; sets `isPaused` and issues the
  backend `down` command (`internalDisconnect`).
- `actResume`: `resume()` — no-op unless paused and running; clears `isPaused`
  and `trySend`s a resume signal.
- `actDisconnect`: `disconnect()` — `trySend`s a disconnect signal, then if
  paused performs the `resume()` body instead of the backend `down` command,
  otherwise issues `down` (`internalDisconnect`). -/
def applyAct (s : WgState) : WgAct → WgState
  | .actStartConnect =>
    match s.phase with
    | .phIdle => { s with isRunning := true, mailbox := none, phase := .phInIter }
    | _ => s
  | .actIterOk =>
    match s.phase with
    | .phInIter => { s with phase := .phAtPauseCheck, trace := s.trace ++ [.evCmdUp] }
    | _ => s
  | .actIterFail upIssued =>
    match s.phase with
    | .phInIter =>
      { s with phase := .phIdle, isRunning := false,
               trace := s.trace ++ (if upIssued then [.evCmdUp] else []) }
    | _ => s
  | .actCheckPause =>
    match s.phase with
    | .phAtPauseCheck =>
      if s.isPaused then { s with phase := .phBlocked }
      else { s with phase := .phIdle, isRunning := false }
    | _ => s
  | .actRecv =>
    match s.phase, s.mailbox with
    | .phBlocked, some op =>
      if op = WgOp.opResume then { s with mailbox := none, phase := .phInIter }
      else { s with mailbox := none, phase := .phIdle, isRunning := false }
    | _, _ => s
  | .actPause =>
    if s.isRunning then { s with isPaused := true, trace := s.trace ++ [.evCmdDown] }
    else s
  | .actResume =>
    if s.isPaused && s.isRunning then
      { s with isPaused := false, mailbox := trySend s.mailbox WgOp.opResume }
    else s
  | .actDisconnect =>
    let s1 := { s with mailbox := trySend s.mailbox WgOp.opDisconnect }
    if s1.isPaused then
      (if s1.isPaused && s1.isRunning then
        { s1 with isPaused := false, mailbox := trySend s1.mailbox WgOp.opResume }
       else s1)
    else { s1 with trace := s1.trace ++ [.evCmdDown] }

/-- Initial state: controller constructed, `connect` not yet called. -/
def wgInit : WgState := ⟨false, false, none, WgPhase.phIdle, []⟩

/-- Execute a sequence of atomic actions from the initial state. -/
def wgRun (acts : List WgAct) : WgState :=
  List.foldl applyAct wgInit acts

/-!
Embedding of one iteration body of the `connect` loop, at the granularity needed
for the DNS-related claims: which DNS-controller invocations it performs and
with which arguments.
-/

/-- The per-attempt connection parameters used by the loop body
(`wg.connectParams`). -/
structure ConnectParams where
  clientLocalIP : Nat
  hostLocalIP : Nat
  hostIP : Nat
deriving DecidableEq

/-- Outcomes of the fallible steps of one iteration body: config write,
backend `up` start, `dns.SetManual`. -/
structure IterEnv where
  genOk : Bool
  upOk : Bool
  dnsSetOk : Bool
deriving DecidableEq

/-- Externally observable events of one iteration body, in order: the backend
`up` invocation, the `dns.SetManual(dns, localIP)` call with its two arguments,
the Connected notification, and the deferred `dns.DeleteManual(localIP)` call. -/
inductive IterEvent
  | evUp
  | evDnsSetManual (dns : Option Nat) (localIP : Option Nat)
  | evStateConnected (clientIP : Nat) (hostIP : Nat)
  | evDnsDeleteManual (localIP : Option Nat)
deriving DecidableEq

/-- One iteration of the `connect` loop: generate and save the config (failure
aborts with no external call), run `<binary> up <cfg>` (failure aborts), then
the inner function: `dns.SetManual(dnsIP, nil)` where `dnsIP` is the manual
override if set, else `connectParams.hostLocalIP`; on success notify
`Connected(clientLocalIP, hostIP)` and wait for the interface to disappear; in
every case the deferred `dns.DeleteManual(nil)` runs when the inner function
exits. Returns whether the iteration succeeded plus its event trace. -/
def connectIterBody (env : IterEnv) (p : ConnectParams) (manualDNS : Option Nat) : Bool × List IterEvent :=
  if env.genOk = false then (false, [])
  else if env.upOk = false then (false, [.evUp])
  else
    let dnsIP : Option Nat := match manualDNS with
      | some d => some d
      | none => some p.hostLocalIP
    if env.dnsSetOk = false then
      (false, [.evUp, .evDnsSetManual dnsIP none, .evDnsDeleteManual none])
    else
      (true, [.evUp, .evDnsSetManual dnsIP none,
              .evStateConnected p.clientLocalIP p.hostIP, .evDnsDeleteManual none])

/-- The effective DNS value of one loop iteration: the manual override when set,
otherwise the tunnel's own local gateway (`hostLocalIP`). -/
def effectiveDNS (manualDNS : Option Nat) (p : ConnectParams) : Option Nat :=
  match manualDNS with
  | some d => some d
  | none => some p.hostLocalIP

/-!
Concrete inputs used by the counterexamples and witnesses.
-/

/-- `10.0.0.1` — the target DNS of the spec's call-ordering example. -/
def dnsTarget : Nat := 167772161

/-- `10.5.0.2` — the tunnel-local address of the call-ordering example. -/
def tunIP : Nat := 168099842

/-- `10.0.0.5` — own address of the non-tunnel interface on `10.0.0.0/24`. -/
def ifIP : Nat := 167772165

/-- `aa:bb:cc:dd:ee:ff` as a 48-bit number. -/
def macFF : Nat := 187723572702975

/-- `10.0.0.10` — a previously tracked DNS value inside `10.0.0.0/24`. -/
def dnsA : Nat := 167772170

/-- `10.10.0.10` — a DNS value outside every local subnet. -/
def dnsB : Nat := 168430090

/-- The non-tunnel interface: address `10.0.0.5` on subnet `10.0.0.0/24`. -/
def netOther : LocalNet := ⟨ifIP, 167772160, 24⟩

/-- The tunnel interface: address `10.5.0.2` on subnet `10.5.0.0/24`. -/
def netTun : LocalNet := ⟨tunIP, 168099840, 24⟩

/-- Concrete topology: the tunnel interface and one other local interface whose
hardware address resolves to `aa:bb:cc:dd:ee:ff`. -/
def envA : TopoEnv :=
  ⟨.ok [netTun, netOther], fun ip => if ip = ifIP then .ok (some macFF) else .ok none⟩

/-- Topology environment whose whole enumeration fails. -/
def envErr : TopoEnv := ⟨.error (), fun _ => .ok none⟩

/-- Oracle under which every native call succeeds. -/
def orcAll : NativeCall → Bool := fun _ => true

/-- Oracle under which exactly the `fSetDNSByMAC` calls fail. -/
def orcNoMac : NativeCall → Bool :=
  fun c => match c with | .byMAC _ _ _ => false | _ => true

/-- Oracle under which exactly the mode-Del `fSetDNSByMAC` calls fail. -/
def orcNoDel : NativeCall → Bool :=
  fun c => match c with | .byMAC _ _ .opDel => false | _ => true

/-- Oracle under which exactly the `fSetDNSByLocalIP` calls fail. -/
def orcNoLocal : NativeCall → Bool :=
  fun c => match c with | .byLocalIP _ _ _ => false | _ => true

/-- The DNS state reached by the successful call-ordering example. -/
def stateAfterC7 : DnsState :=
  ⟨some dnsTarget, [.byLocalIP tunIP (some dnsTarget) .opSet, .byMAC macFF (some dnsTarget) .opAdd]⟩

/-- The controller state reached by `connect; pause; iteration failure`. -/
def c5state : WgState := ⟨false, true, none, WgPhase.phIdle, [WgEvent.evCmdDown]⟩

/-- What `macPick` keeps of one enumerated network: `none` when the interface
is the excluded one, when its subnet does not contain the target, or when its
hardware-address resolution fails or is empty; otherwise its hardware address.
Used to restate `getMACAddrByIPinNetwork` as a `filterMap`. -/
def macPick (env : TopoEnv) (a : Nat) (skip : Option Nat) (network : LocalNet) : Option Nat :=
  if ipEq (some network.ip) skip then none
  else if netContains network a then
    match env.ifaceByIP network.ip with
    | .error _ => none
    | .ok none => none
    | .ok (some hw) => some hw
  else none

/-!
Helper lemmas.
-/

theorem ipEq_refl (x : Option Nat) : ipEq x x = true := by
  cases x <;> simp [ipEq]

theorem macLoop_lastDNS (oracle : NativeCall → Bool) (op : DnsOp) (dnsVal : Option Nat) :
    ∀ (ms : List Nat) (s : DnsState), ((macLoop oracle op dnsVal ms s).2).lastDNS = s.lastDNS := by
  intro ms
  induction ms with
  | nil => intro s; rfl
  | cons m rest ih =>
    intro s
    simp only [macLoop]
    split
    · exact ih _
    · rfl

theorem localIPStep_lastDNS (oracle : NativeCall → Bool) (lip dns : Option Nat) (s : DnsState) :
    ((localIPStep oracle lip dns s).2).lastDNS = s.lastDNS := by
  cases lip <;> simp [localIPStep]


theorem implDeleteManual_error_lastDNS (env : TopoEnv) (oracle : NativeCall → Bool)
    (lip : Option Nat) (s s' : DnsState)
    (h : implDeleteManual env oracle lip s = (.error (), s')) : s'.lastDNS = s.lastDNS := by
  simp only [implDeleteManual] at h
  split at h
  · exact absurd h (by simp)
  · split at h
    · rename_i e s1 heq
      rw [Prod.mk.injEq] at h
      obtain ⟨-, rfl⟩ := h
      have := localIPStep_lastDNS oracle lip (some ipv4zero) s
      rw [heq] at this
      exact this
    · rename_i v s1 heq
      split at h
      · rename_i e s2 heq2
        rw [Prod.mk.injEq] at h
        obtain ⟨-, rfl⟩ := h
        have h1 := localIPStep_lastDNS oracle lip (some ipv4zero) s
        rw [heq] at h1
        have h2 := macLoop_lastDNS oracle DnsOp.opDel s.lastDNS
          (listOrNil (getMACAddrByIPinNetwork env s.lastDNS lip)) s1
        rw [heq2] at h2
        rw [h2, h1]
      · exact absurd h (by simp)

theorem implDeleteManual_ok_cases (env : TopoEnv) (oracle : NativeCall → Bool)
    (lip : Option Nat) (s s' : DnsState)
    (h : implDeleteManual env oracle lip s = (.ok (), s')) : s' = s ∨ s'.lastDNS = none := by
  simp only [implDeleteManual] at h
  split at h
  · rw [Prod.mk.injEq] at h
    obtain ⟨-, rfl⟩ := h
    exact Or.inl rfl
  · split at h
    · exact absurd h (by simp)
    · split at h
      · exact absurd h (by simp)
      · rw [Prod.mk.injEq] at h
        obtain ⟨-, rfl⟩ := h
        exact Or.inr rfl

theorem implDeleteManual_ok_none (env : TopoEnv) (oracle : NativeCall → Bool)
    (s s' : DnsState)
    (h : implDeleteManual env oracle none s = (.ok (), s')) :
    (s' = s ∧ listOrNil (getMACAddrByIPinNetwork env s.lastDNS none) = []) ∨ s'.lastDNS = none := by
  simp only [implDeleteManual] at h
  split at h
  · rename_i hg
    rw [Prod.mk.injEq] at h
    obtain ⟨-, rfl⟩ := h
    exact Or.inl ⟨rfl, hg.2⟩
  · split at h
    · exact absurd h (by simp)
    · split at h
      · exact absurd h (by simp)
      · rw [Prod.mk.injEq] at h
        obtain ⟨-, rfl⟩ := h
        exact Or.inr rfl

theorem implDeleteManual_noop (env : TopoEnv) (oracle : NativeCall → Bool) (s : DnsState)
    (h : listOrNil (getMACAddrByIPinNetwork env s.lastDNS none) = []) :
    implDeleteManual env oracle none s = (.ok (), s) := by
  simp only [implDeleteManual]
  rw [if_pos ⟨trivial, h⟩]

theorem setManualApply_error_lastDNS (env : TopoEnv) (oracle : NativeCall → Bool)
    (addr lip : Option Nat) (s0 s1 : DnsState)
    (h : setManualApply env oracle addr lip s0 = (.error (), s1)) : s1.lastDNS = s0.lastDNS := by
  simp only [setManualApply] at h
  split at h
  · exact absurd h (by simp)
  · split at h
    · rename_i e sa heq
      rw [Prod.mk.injEq] at h
      obtain ⟨-, rfl⟩ := h
      have := localIPStep_lastDNS oracle lip addr s0
      rw [heq] at this
      exact this
    · rename_i v sa heq
      split at h
      · rename_i e sb heq2
        rw [Prod.mk.injEq] at h
        obtain ⟨-, rfl⟩ := h
        have h1 := localIPStep_lastDNS oracle lip addr s0
        rw [heq] at h1
        have h2 := macLoop_lastDNS oracle DnsOp.opAdd addr
          (listOrNil (getMACAddrByIPinNetwork env addr lip)) sa
        rw [heq2] at h2
        rw [h2, h1]
      · exact absurd h (by simp)

theorem setManualApply_ok_cases (env : TopoEnv) (oracle : NativeCall → Bool)
    (addr lip : Option Nat) (s0 s1 : DnsState)
    (h : setManualApply env oracle addr lip s0 = (.ok (), s1)) :
    (s1 = s0 ∧ lip = none ∧ listOrNil (getMACAddrByIPinNetwork env addr lip) = []) ∨
      s1.lastDNS = addr := by
  simp only [setManualApply] at h
  split at h
  · rename_i hg
    rw [Prod.mk.injEq] at h
    obtain ⟨-, rfl⟩ := h
    exact Or.inl ⟨rfl, hg.1, hg.2⟩
  · split at h
    · exact absurd h (by simp)
    · split at h
      · exact absurd h (by simp)
      · rw [Prod.mk.injEq] at h
        obtain ⟨-, rfl⟩ := h
        exact Or.inr rfl

theorem setManualApply_noop (env : TopoEnv) (oracle : NativeCall → Bool)
    (addr : Option Nat) (s0 : DnsState)
    (h : listOrNil (getMACAddrByIPinNetwork env addr none) = []) :
    setManualApply env oracle addr none s0 = (.ok (), s0) := by
  simp only [setManualApply]
  rw [if_pos ⟨trivial, h⟩]

theorem gmacStep_toList (env : TopoEnv) (a : Nat) (skip : Option Nat)
    (ret : List Nat) (network : LocalNet) :
    gmacStep env a skip ret network = ret ++ (macPick env a skip network).toList := by
  by_cases h1 : ipEq (some network.ip) skip = true
  · simp [gmacStep, macPick, h1]
  · by_cases h2 : netContains network a = true
    · rcases h3 : env.ifaceByIP network.ip with e | o
      · simp [gmacStep, macPick, h1, h2, h3]
      · cases o <;> simp [gmacStep, macPick, h1, h2, h3]
    · simp [gmacStep, macPick, h1, h2]

theorem foldl_gmacStep (env : TopoEnv) (a : Nat) (skip : Option Nat) :
    ∀ (nets : List LocalNet) (acc : List Nat),
      nets.foldl (gmacStep env a skip) acc = acc ++ nets.filterMap (macPick env a skip) := by
  intro nets
  induction nets with
  | nil => intro acc; simp
  | cons n rest ih =>
    intro acc
    rw [List.foldl_cons, gmacStep_toList, ih]
    rcases hp : macPick env a skip n with _ | hw <;> simp [hp, List.filterMap_cons]

theorem getMAC_error_nil (env : TopoEnv) (h : env.networks = .error ()) (x skip : Option Nat) :
    listOrNil (getMACAddrByIPinNetwork env x skip) = [] := by
  cases x <;> simp [getMACAddrByIPinNetwork, listOrNil, h]

/-!
Claim theorems.
-/

/-- C1 (counterexample): the claim that `deleteManual` clears the tracked DNS
value unconditionally, including when a per-interface mode-Del operation fails,
is false. With tracked value `10.0.0.10`, one matching interface
`aa:bb:cc:dd:ee:ff`, and the mode-Del native call failing, the call returns the
error and the tracked value is still `10.0.0.10`, not `None`. -/
theorem deleteManual_failure_keeps_tracked_cex :
    implDeleteManual envA orcNoDel none ⟨some dnsA, []⟩ =
      (.error (), ⟨some dnsA, [.byMAC macFF (some dnsA) .opDel]⟩) ∧
    ((implDeleteManual envA orcNoDel none ⟨some dnsA, []⟩).2).lastDNS ≠ none := by
  decide

/-- C1 (amended): `deleteManual` clears the tracked DNS value only on success:
when any native operation fails, the call returns the error with the tracked
value unchanged; when the call returns success, either every issued operation
succeeded and the value is cleared, or the call was the early no-op return and
the whole state is unchanged. -/
theorem deleteManual_tracked_clearing (env : TopoEnv) (oracle : NativeCall → Bool)
    (lip : Option Nat) (s : DnsState) :
    (∀ s', implDeleteManual env oracle lip s = (.error (), s') → s'.lastDNS = s.lastDNS) ∧
    (∀ s', implDeleteManual env oracle lip s = (.ok (), s') → s' = s ∨ s'.lastDNS = none) :=
  ⟨fun s' h => implDeleteManual_error_lastDNS env oracle lip s s' h,
   fun s' h => implDeleteManual_ok_cases env oracle lip s s' h⟩

/-- Witness for `deleteManual_tracked_clearing`: both halves applied at
concrete inputs — a failing mode-Del call leaves the tracked value `10.0.0.10`,
and a fully successful delete clears it. -/
theorem deleteManual_tracked_clearing_wit :
    ((⟨some dnsA, [.byMAC macFF (some dnsA) .opDel]⟩ : DnsState).lastDNS
        = (⟨some dnsA, []⟩ : DnsState).lastDNS) ∧
    ((⟨none, [.byMAC macFF (some dnsA) .opDel]⟩ : DnsState) = (⟨some dnsA, []⟩ : DnsState) ∨
      (⟨none, [.byMAC macFF (some dnsA) .opDel]⟩ : DnsState).lastDNS = none) :=
  ⟨(deleteManual_tracked_clearing envA orcNoDel none ⟨some dnsA, []⟩).1 _ (by decide),
   (deleteManual_tracked_clearing envA orcAll none ⟨some dnsA, []⟩).2 _ (by decide)⟩

/-- C2 (counterexample): the claim that a failing `setManual` leaves the
tracked DNS value exactly as it was at the start of the call is false. With
tracked value `10.0.0.10`, the embedded cleanup (`implDeleteManual(nil)`)
succeeds and clears the tracked value, after which the mode-Set call on the
tunnel interface fails: the call returns an error but the tracked value is now
`None`, not `10.0.0.10`. -/
theorem setManual_error_changes_tracked_cex :
    implSetManual envA orcNoLocal (some dnsB) (some tunIP) ⟨some dnsA, []⟩ =
      (.error (), ⟨none, [.byMAC macFF (some dnsA) .opDel, .byLocalIP tunIP (some dnsB) .opSet]⟩) ∧
    ((implSetManual envA orcNoLocal (some dnsB) (some tunIP) ⟨some dnsA, []⟩).2).lastDNS ≠
      (⟨some dnsA, []⟩ : DnsState).lastDNS := by
  decide

/-- C2 (amended): when `setManual` returns an error, the tracked DNS value is
either unchanged or has been cleared to `None` by the successful embedded
cleanup of the previously tracked value; it is set to `targetDNS` only on the
all-calls-succeeded path. -/
theorem setManual_error_tracked_cases (env : TopoEnv) (oracle : NativeCall → Bool)
    (addr lip : Option Nat) (s s' : DnsState)
    (h : implSetManual env oracle addr lip s = (.error (), s')) :
    s'.lastDNS = s.lastDNS ∨ s'.lastDNS = none := by
  rw [implSetManual] at h
  by_cases h0 : ipEq addr s.lastDNS = true
  · rw [if_pos h0] at h
    exact absurd h (by simp)
  · rw [if_neg h0] at h
    by_cases h1 : s.lastDNS.isSome = true
    · rw [if_pos h1] at h
      rcases hd : implDeleteManual env oracle none s with ⟨r0, s0⟩
      rw [hd] at h
      cases r0 with
      | error e =>
        cases e
        rw [Prod.mk.injEq] at h
        obtain ⟨-, h2⟩ := h
        rw [← h2]
        exact Or.inl (implDeleteManual_error_lastDNS env oracle none s s0 hd)
      | ok v =>
        cases v
        have h3 := setManualApply_error_lastDNS env oracle addr lip s0 s' h
        rcases implDeleteManual_ok_cases env oracle none s s0 hd with hds | hs0
        · rw [hds] at h3
          exact Or.inl h3
        · rw [hs0] at h3
          exact Or.inr h3
    · rw [if_neg h1] at h
      exact Or.inl (setManualApply_error_lastDNS env oracle addr lip s s' h)

/-- Witness for `setManual_error_tracked_cases` at the concrete failing call of
the C2 counterexample. -/
theorem setManual_error_tracked_cases_wit :
    (⟨none, [.byMAC macFF (some dnsA) .opDel, .byLocalIP tunIP (some dnsB) .opSet]⟩ : DnsState).lastDNS =
        (⟨some dnsA, []⟩ : DnsState).lastDNS ∨
      (⟨none, [.byMAC macFF (some dnsA) .opDel, .byLocalIP tunIP (some dnsB) .opSet]⟩ : DnsState).lastDNS = none :=
  setManual_error_tracked_cases envA orcNoLocal (some dnsB) (some tunIP) ⟨some dnsA, []⟩ _ (by decide)

/-- C6: `setManual` is idempotent — if a call `setManual(addr, lip)` completed
successfully, repeating the exact call from the resulting state returns success
and leaves the state (in particular the native-call trace) unchanged: the
second call issues zero native calls. -/
theorem setManual_idempotent (env : TopoEnv) (oracle : NativeCall → Bool)
    (addr lip : Option Nat) (s s₁ : DnsState)
    (h : implSetManual env oracle addr lip s = (.ok (), s₁)) :
    implSetManual env oracle addr lip s₁ = (.ok (), s₁) := by
  rw [implSetManual] at h
  by_cases h0 : ipEq addr s.lastDNS = true
  · rw [if_pos h0] at h
    rw [Prod.mk.injEq] at h
    obtain ⟨-, h⟩ := h
    rw [← h]
    rw [implSetManual, if_pos h0]
  · rw [if_neg h0] at h
    by_cases h1 : s.lastDNS.isSome = true
    · rw [if_pos h1] at h
      rcases hd : implDeleteManual env oracle none s with ⟨r0, s0⟩
      rw [hd] at h
      cases r0 with
      | error e => exact absurd h (by simp)
      | ok v =>
        cases v
        rcases implDeleteManual_ok_none env oracle s s0 hd with ⟨hds, hdm⟩ | hs0
        · rw [hds] at h
          rcases setManualApply_ok_cases env oracle addr lip s s₁ h with ⟨hs1, hlip, hm⟩ | hset
          · rw [hlip] at hm
            rw [hs1, hlip]
            rw [implSetManual, if_neg h0, if_pos h1,
              implDeleteManual_noop env oracle s hdm]
            exact setManualApply_noop env oracle addr s hm
          · rw [implSetManual, if_pos (by rw [hset]; exact ipEq_refl addr)]
        · rcases setManualApply_ok_cases env oracle addr lip s0 s₁ h with ⟨hs1, hlip, hm⟩ | hset
          · rw [hlip] at hm
            rw [hs1, hlip]
            cases addr with
            | none => rw [implSetManual, if_pos (by rw [hs0]; rfl)]
            | some a =>
              rw [implSetManual, if_neg (by rw [hs0]; simp [ipEq]),
                if_neg (by rw [hs0]; simp)]
              exact setManualApply_noop env oracle (some a) s0 hm
          · rw [implSetManual, if_pos (by rw [hset]; exact ipEq_refl addr)]
    · rw [if_neg h1] at h
      rcases setManualApply_ok_cases env oracle addr lip s s₁ h with ⟨hs1, hlip, hm⟩ | hset
      · rw [hlip] at hm
        rw [hs1, hlip]
        rw [implSetManual, if_neg h0, if_neg h1]
        exact setManualApply_noop env oracle addr s hm
      · rw [implSetManual, if_pos (by rw [hset]; exact ipEq_refl addr)]

/-- Witness for `setManual_idempotent`: after a successful
`setManual(10.0.0.1, nil)` that issued one mode-Add call, repeating the call
returns success with the state unchanged. -/
theorem setManual_idempotent_wit :
    implSetManual envA orcAll (some dnsTarget) none
        ⟨some dnsTarget, [.byMAC macFF (some dnsTarget) .opAdd]⟩ =
      (.ok (), ⟨some dnsTarget, [.byMAC macFF (some dnsTarget) .opAdd]⟩) :=
  setManual_idempotent envA orcAll (some dnsTarget) none ⟨none, []⟩ _ (by decide)

/-- C7: the call-ordering example. With no tracked value and the concrete
topology (`10.5.0.2` tunnel interface plus one other interface
`aa:bb:cc:dd:ee:ff` on `10.0.0.0/24`), `setManual(10.0.0.1, 10.5.0.2)` issues
exactly `setDNSByLocalAddress(10.5.0.2, 10.0.0.1, Set)` and then
`setDNSByHardwareAddress(aa:bb:cc:dd:ee:ff, 10.0.0.1, Add)`, in that order, and
tracks `10.0.0.1` afterwards; if the second call fails, both calls are still
issued in that order but the tracked value stays `None`. -/
theorem setManual_call_ordering :
    implSetManual envA orcAll (some dnsTarget) (some tunIP) ⟨none, []⟩ =
      (.ok (), stateAfterC7) ∧
    implSetManual envA orcNoMac (some dnsTarget) (some tunIP) ⟨none, []⟩ =
      (.error (), ⟨none, [.byLocalIP tunIP (some dnsTarget) .opSet, .byMAC macFF (some dnsTarget) .opAdd]⟩) := by
  decide

/-- C9: error handling of the topology resolver. For a non-`nil` target
address, `getMACAddrByIPinNetwork` fails exactly when the whole enumeration of
local networks fails, and otherwise succeeds with the per-network `filterMap`
of `macPick` — a network whose hardware-address lookup fails (or resolves to
nothing) contributes `none`, i.e. is omitted while the call still succeeds. -/
theorem matchingInterfaces_error_handling (env : TopoEnv) (a : Nat) (skip : Option Nat) :
    getMACAddrByIPinNetwork env (some a) skip =
      (match env.networks with
       | .error _ => .error ()
       | .ok nets => .ok (nets.filterMap (macPick env a skip))) := by
  rcases h : env.networks with e | nets
  · simp [getMACAddrByIPinNetwork, h]
  · simp [getMACAddrByIPinNetwork, h, foldl_gmacStep]

/-- C10: the topology-resolution error is swallowed by both DNS operations.
When enumerating local networks fails, `setManual(addr, nil)` and
`deleteManual(nil)` both return success and leave the state untouched — in
particular they issue zero native calls (trace unchanged). -/
theorem topology_error_swallowed (env : TopoEnv) (oracle : NativeCall → Bool)
    (addr : Option Nat) (s : DnsState) (h : env.networks = Except.error ()) :
    implSetManual env oracle addr none s = (.ok (), s) ∧
    implDeleteManual env oracle none s = (.ok (), s) := by
  have hdel : implDeleteManual env oracle none s = (.ok (), s) :=
    implDeleteManual_noop env oracle s (getMAC_error_nil env h s.lastDNS none)
  refine ⟨?_, hdel⟩
  rw [implSetManual]
  by_cases h0 : ipEq addr s.lastDNS = true
  · rw [if_pos h0]
  · rw [if_neg h0]
    by_cases h1 : s.lastDNS.isSome = true
    · rw [if_pos h1, hdel]
      exact setManualApply_noop env oracle addr s (getMAC_error_nil env h addr none)
    · rw [if_neg h1]
      exact setManualApply_noop env oracle addr s (getMAC_error_nil env h addr none)

/-- Witness for `topology_error_swallowed` at a concrete failing environment. -/
theorem topology_error_swallowed_wit :
    implSetManual envErr orcAll (some 9) none ⟨some 7, []⟩ = (.ok (), ⟨some 7, []⟩) ∧
    implDeleteManual envErr orcAll none ⟨some 7, []⟩ = (.ok (), ⟨some 7, []⟩) :=
  topology_error_swallowed envErr orcAll (some 9) ⟨some 7, []⟩ rfl

/-- C3 (counterexample): the claim that a second signal supersedes a pending
unconsumed one, so the receiver observes the most recent intent, is false. With
a pending `resume` signal, sending `disconnect` through the `select`/`default`
statement keeps the pending `resume`: the receiver observes the OLDER signal,
and the new one is dropped. -/
theorem mailbox_pending_not_superseded_cex :
    trySend (some WgOp.opResume) WgOp.opDisconnect = some WgOp.opResume ∧
    trySend (some WgOp.opResume) WgOp.opDisconnect ≠ some WgOp.opDisconnect := by
  decide

/-- C3 (amended): the mailbox holds at most one signal (it is a single `Option`
slot) and has drop-if-full semantics in the other direction: a send onto an
occupied slot is discarded and the pending (earlier) signal survives; a send
onto an empty slot is stored. -/
theorem mailbox_drop_new_signal (a b : WgOp) :
    trySend (some a) b = some a ∧ trySend none b = some b :=
  ⟨rfl, rfl⟩

/-- C4 (counterexample): the claim that the DNS value is applied and restored
with the tunnel's local address as the `tunnelLocalAddr` argument is false. In
a fully successful iteration (client local address `10`, host local gateway
`20`, remote host `30`, no manual override), the `dns.SetManual` and
`dns.DeleteManual` invocations carry a `nil` local-address argument, not the
tunnel's local address `10`. -/
theorem connect_dns_nil_localaddr_cex :
    connectIterBody ⟨true, true, true⟩ ⟨10, 20, 30⟩ none =
      (true, [.evUp, .evDnsSetManual (some 20) none,
              .evStateConnected 10 30, .evDnsDeleteManual none]) ∧
    (none : Option Nat) ≠ some 10 := by
  decide

/-- C4 (amended): in every iteration whose config generation and backend start
succeed, the effective DNS value (manual override if set, else the tunnel's own
local gateway) is applied through `dns.SetManual` with a `nil`
`tunnelLocalAddr` argument, and the teardown restoration `dns.DeleteManual` is
likewise invoked with `nil`, at the end of the iteration in every case. -/
theorem connect_dns_effective_value (env : IterEnv) (p : ConnectParams)
    (manualDNS : Option Nat) (h1 : env.genOk = true) (h2 : env.upOk = true) :
    (connectIterBody env p manualDNS).2 =
      [.evUp, .evDnsSetManual (effectiveDNS manualDNS p) none] ++
        (if env.dnsSetOk then
          [.evStateConnected p.clientLocalIP p.hostIP, .evDnsDeleteManual none]
         else [.evDnsDeleteManual none]) := by
  rcases env with ⟨g, u, d⟩
  simp only at h1 h2
  rw [h1, h2]
  cases d <;> cases manualDNS <;> simp [connectIterBody, effectiveDNS]

/-- Witness for `connect_dns_effective_value`: iteration with a manual override
`7` whose DNS application fails. -/
theorem connect_dns_effective_value_wit :
    (connectIterBody ⟨true, true, false⟩ ⟨1, 2, 3⟩ (some 7)).2 =
      [.evUp, .evDnsSetManual (effectiveDNS (some 7) ⟨1, 2, 3⟩) none] ++
        (if (⟨true, true, false⟩ : IterEnv).dnsSetOk then
          [.evStateConnected (⟨1, 2, 3⟩ : ConnectParams).clientLocalIP
            (⟨1, 2, 3⟩ : ConnectParams).hostIP, .evDnsDeleteManual none]
         else [.evDnsDeleteManual none]) :=
  connect_dns_effective_value ⟨true, true, false⟩ ⟨1, 2, 3⟩ (some 7) rfl rfl

/-- C5 (counterexample): the claim that `paused` implies `running` in every
reachable state is false. The action sequence: `connect` starts, `pause()` is
called from another execution context (valid, the tunnel is running), then the
current loop iteration fails (e.g. the config write fails) and `connect`
returns, clearing `isRunning` but never touching `isPaused`. The resulting
reachable state has `isPaused = true` and `isRunning = false`. -/
theorem paused_without_running_reachable_cex :
    wgRun [.actStartConnect, .actPause, .actIterFail false] = c5state ∧
    c5state.isPaused = true ∧ c5state.isRunning = false := by
  decide

/-- C5 (amended): the `paused` flag is only ever SET while `running` is true
(every step that turns `isPaused` from false to true happens in a state with
`isRunning = true`), but it can outlive `running`: `connect`'s exit path clears
`isRunning` without clearing `isPaused`. -/
theorem paused_set_only_while_running (s : WgState) (a : WgAct)
    (h : (applyAct s a).isPaused = true) :
    s.isPaused = true ∨ s.isRunning = true := by
  by_cases hp : s.isPaused = true
  · exact Or.inl hp
  · right
    rcases s with ⟨r, p, m, ph, tr⟩
    simp only [Bool.not_eq_true] at hp
    subst hp
    cases r
    · exfalso
      cases a <;> cases ph <;> rcases m with _ | op <;>
        simp_all [applyAct, trySend, apply_ite]
    · rfl

/-- Witness for `paused_set_only_while_running`: `pause()` on a running,
unpaused controller sets the paused flag, and the pre-state was running. -/
theorem paused_set_only_while_running_wit :
    (⟨true, false, none, WgPhase.phInIter, []⟩ : WgState).isPaused = true ∨
      (⟨true, false, none, WgPhase.phInIter, []⟩ : WgState).isRunning = true :=
  paused_set_only_while_running ⟨true, false, none, WgPhase.phInIter, []⟩ WgAct.actPause (by decide)

/-- C8: disconnect-while-paused. From any state in which the connect loop is
blocked on the control mailbox while paused and running (empty mailbox),
`disconnect()` enqueues the disconnect signal and performs the `resume()` body
(clearing `isPaused`) instead of issuing the backend `down` command (trace
unchanged); the woken receive then observes the non-resume signal and leaves
the loop — `connect` ends (phase idle, `isRunning = false`) without any further
backend `up` command (trace still unchanged). -/
theorem disconnect_while_paused_exits (s : WgState)
    (h1 : s.phase = WgPhase.phBlocked) (h2 : s.isPaused = true)
    (h3 : s.isRunning = true) (h4 : s.mailbox = none) :
    applyAct s WgAct.actDisconnect =
      { s with isPaused := false, mailbox := some WgOp.opDisconnect } ∧
    applyAct (applyAct s WgAct.actDisconnect) WgAct.actRecv =
      { s with isPaused := false, mailbox := none,
               phase := WgPhase.phIdle, isRunning := false } := by
  rcases s with ⟨r, p, m, ph, tr⟩
  simp only at h1 h2 h3 h4
  subst h1
  subst h2
  subst h3
  subst h4
  exact ⟨rfl, rfl⟩

/-- Witness for `disconnect_while_paused_exits` at a concrete blocked state. -/
theorem disconnect_while_paused_exits_wit :
    applyAct ⟨true, true, none, WgPhase.phBlocked, []⟩ WgAct.actDisconnect =
      ⟨true, false, some WgOp.opDisconnect, WgPhase.phBlocked, []⟩ ∧
    applyAct (applyAct ⟨true, true, none, WgPhase.phBlocked, []⟩ WgAct.actDisconnect) WgAct.actRecv =
      ⟨false, false, none, WgPhase.phIdle, []⟩ :=
  disconnect_while_paused_exits ⟨true, true, none, WgPhase.phBlocked, []⟩ rfl rfl rfl rfl
